import Mathlib

/-!
Shallow embedding of the scheduling/delivery engine of `src/main.py`
(a Telegram message-scheduler bot).

The durable MongoDB collection `messages` is modelled as a `Store`: a list
of `Msg` records plus a `nextId` counter standing for the store-assigned
`_id` of the next inserted document.  Python field values that the code
tests for *truthiness* are modelled with explicit truthiness functions:
an absent or falsy string field is `""`, an absent or falsy numeric chat
id is `0`, a possibly non-numeric `interval_seconds` value is an `IVal`
(a number, or a non-numeric value carrying its Python truthiness), and a
`schedule_time` string is a `TVal` (either a string `strptime` rejects,
or one parsing to an absolute timestamp, an `Int` on one implicit local
timeline).  The `schedule` library's set of live timers tagged
`message_{id}` is the `Trigs` list of `(job id, trigger kind)` pairs;
`schedule.clear(tag)` removes every entry with that tag, and a job
callback returning `schedule.CancelJob` removes its own entry.
-/

/-- A possibly non-numeric value of the `interval_seconds` field: `num n`
is an `int`/`float` at value `n`; `other b` is a non-numeric value whose
Python truthiness is `b` (e.g. a non-empty string is `other true`). -/
inductive IVal where
  | num (n : Int)
  | other (truthy : Bool)
deriving DecidableEq

/-- A `schedule_time` string: `invalid` fails
`datetime.strptime(s, "%Y-%m-%d %H:%M:%S")`; `parsed t` parses to the
absolute local timestamp `t`. -/
inductive TVal where
  | invalid
  | parsed (t : Int)
deriving DecidableEq

/-- One document of the `messages` collection (fields as inserted by
`handle_schedule_message_start` / read back by the engine).  `file_id` is
stored by the bot as `str(photo.id)`, a non-empty decimal string, so it
is modelled as the parsed integer and is truthy iff present; `sent` is
the completion flag. -/
structure Msg where
  id : Nat
  chat_id : Int
  schedule_name : String
  message_text : String
  interval_seconds : Option IVal
  schedule_time : Option TVal
  media_type : Option String
  file_id : Option Int
  access_hash : Option Int
  buttons : List (String × String)
  sent : Bool
deriving DecidableEq

/-- The timer registered with the `schedule` library:
`schedule.every(n).seconds` for an interval job, or
`schedule.every().day.at(clock)` for a one-time job (the source installs
the time-of-day component of the parsed timestamp; we carry the parsed
timestamp itself). -/
inductive TrigKind where
  | repeating (n : Int)
  | daily (t : Int)
deriving DecidableEq

/-- The live timer set: pairs of (job id carried by the `message_{id}`
tag, trigger kind). -/
abbrev Trigs := List (Nat × TrigKind)

/-- `schedule.clear(f"message_{mid}")`: drop every timer with that tag. -/
def clearTag (trigs : Trigs) (mid : Nat) : Trigs :=
  trigs.filter (fun p => p.1 != mid)

/-- The MongoDB collection plus the id the store will assign next. -/
structure Store where
  recs : List Msg
  nextId : Nat
deriving DecidableEq

/-- Python truthiness of the `interval_seconds` field
(`if interval_seconds:` / `if not message.get("interval_seconds")`). -/
def pyTruthyI : Option IVal → Bool
  | none => false
  | some (.num n) => n != 0
  | some (.other b) => b

/-- Truthiness of a string field (absent is modelled as `""`). -/
def truthyStr (s : String) : Bool := s != ""

/-- Truthiness of the `chat_id` field (absent is modelled as `0`). -/
def truthyChat (n : Int) : Bool := n != 0

/-- The filter `{"schedule_name": name, "chat_id": chat}`. -/
def matchesPair (chat : Int) (name : String) (m : Msg) : Bool :=
  m.schedule_name == name && m.chat_id == chat

/-- `collection.find_one({"schedule_name": name, "chat_id": chat})`. -/
def findOnePair (st : Store) (chat : Int) (name : String) : Option Msg :=
  st.recs.find? (matchesPair chat name)

/-- `collection.find_one({"_id": ObjectId(mid)})`. -/
def findById (st : Store) (mid : Nat) : Option Msg :=
  st.recs.find? (fun m => m.id == mid)

/-- `collection.delete_one({"_id": ObjectId(mid)})`. -/
def deleteById (st : Store) (mid : Nat) : Store :=
  { st with recs := st.recs.eraseP (fun m => m.id == mid) }

/-- `collection.update_one({"_id": ObjectId(mid)}, {"$set": {"sent": True}})`. -/
def updateSent (st : Store) (mid : Nat) : Store :=
  { st with recs :=
      st.recs.map (fun m => if m.id == mid then { m with sent := true } else m) }

/-- `collection.insert_one(data)`: the store assigns the fresh id and
returns it (`result.inserted_id`). -/
def insertOne (st : Store) (m : Msg) : Store × Nat :=
  ({ recs := st.recs ++ [{ m with id := st.nextId }], nextId := st.nextId + 1 },
   st.nextId)

/-- Store ids are pairwise distinct (MongoDB `_id` uniqueness). -/
abbrev idsNodup (st : Store) : Prop := (st.recs.map Msg.id).Nodup

/-- Every stored id was assigned before `nextId` (fresh-id discipline). -/
abbrev idsBounded (st : Store) : Prop := ∀ m ∈ st.recs, m.id < st.nextId

/-! ## Conversation steps of `handle_conversation` -/

/-- The fields collected before the final `INTERVAL` step
(`state_data['data']` minus chat id, name, trigger and `sent`). -/
structure PendData where
  message_text : String
  media_type : Option String
  file_id : Option Int
  access_hash : Option Int
  buttons : List (String × String)
deriving DecidableEq

/-- The operator's reply at the `INTERVAL` step, after Python's parsing:
`secs n` when `int(text)` succeeds with `n`; `timeAt t` when `int` fails
but `strptime` parses the text to absolute time `t`; `bad` otherwise. -/
inductive IntervalInput where
  | secs (n : Int)
  | timeAt (t : Int)
  | bad
deriving DecidableEq

/-- Outcome of the `INTERVAL` step: rejected with an inline error (the
conversation step is not advanced, nothing is stored), or a record was
created with the given id. -/
inductive CreateOutcome where
  | rejected
  | created (id : Nat)
deriving DecidableEq

/-- The `SCHEDULE_NAME` step of `handle_conversation` (src/main.py
lines 311-332): reject an empty name (third component `false`: step not
advanced); otherwise auto-delete any record with the same
`(schedule_name, chat_id)` and, when that record had `sent == False`,
clear its `message_{id}` timer tag. -/
def nameStep (st : Store) (trigs : Trigs) (chat : Int) (name : String) :
    Store × Trigs × Bool :=
  if name == "" then (st, trigs, false)
  else
    match findOnePair st chat name with
    | some old =>
        (deleteById st old.id,
         if old.sent then trigs else clearTag trigs old.id,
         true)
    | none => (st, trigs, true)

/-- The record inserted at the `INTERVAL` step: the pending data with the
chat id and name collected earlier, the trigger fields, and
`sent = False` (the id is overwritten by `insertOne`). -/
def mkMsg (chat : Int) (name : String) (pend : PendData)
    (iv : Option IVal) (tv : Option TVal) : Msg :=
  { id := 0, chat_id := chat, schedule_name := name,
    message_text := pend.message_text, interval_seconds := iv,
    schedule_time := tv, media_type := pend.media_type,
    file_id := pend.file_id, access_hash := pend.access_hash,
    buttons := pend.buttons, sent := false }

/-- The `INTERVAL` step of `handle_conversation` (src/main.py lines
378-415): a non-positive integer or a timestamp earlier than `now` is
rejected inline with no store or timer change; otherwise the record is
inserted and a repeating or daily timer tagged with its fresh id is
installed. -/
def intervalStep (st : Store) (trigs : Trigs) (chat : Int) (name : String)
    (pend : PendData) (inp : IntervalInput) (now : Int) :
    Store × Trigs × CreateOutcome :=
  match inp with
  | .secs n =>
      if n ≤ 0 then (st, trigs, .rejected)
      else
        ((insertOne st (mkMsg chat name pend (some (.num n)) none)).1,
         trigs ++ [(st.nextId, .repeating n)], .created st.nextId)
  | .timeAt t =>
      if t < now then (st, trigs, .rejected)
      else
        ((insertOne st (mkMsg chat name pend none (some (.parsed t)))).1,
         trigs ++ [(st.nextId, .daily t)], .created st.nextId)
  | .bad => (st, trigs, .rejected)

/-- A full Create: the `SCHEDULE_NAME` step followed (when the name was
accepted) by the `INTERVAL` step. -/
def createMsg (st : Store) (trigs : Trigs) (chat : Int) (name : String)
    (pend : PendData) (inp : IntervalInput) (now : Int) :
    Store × Trigs × CreateOutcome :=
  let r := nameStep st trigs chat name
  if r.2.2 then intervalStep r.1 r.2.1 chat name pend inp now
  else (st, trigs, .rejected)

/-- The `INTERVAL` input passes the step's validation. -/
def validInput (inp : IntervalInput) (now : Int) : Bool :=
  match inp with
  | .secs n => decide (0 < n)
  | .timeAt t => !decide (t < now)
  | .bad => false

/-- `handle_cancel` (src/main.py lines 420-430): deletes the operator's
`user_states` entry (modelled as the list of operator ids with an active
conversation) and answers; it touches neither the store nor the timers. -/
def handleCancel (states : List Nat) (uid : Nat) (st : Store) (trigs : Trigs) :
    List Nat × Store × Trigs :=
  (states.filter (fun u => u != uid), st, trigs)

/-! ## Recovery (`load_schedules`) -/

/-- What `load_schedules` does with one scanned record. -/
inductive RecovAction where
  | skipped
  | markedSent
  | installedRepeating (n : Int)
  | installedDaily (t : Int)
deriving DecidableEq

/-- The per-record body of `load_schedules` (src/main.py lines 103-159),
for one record of the `find({"sent": False})` snapshot: skip when a
required field is falsy, when `get_entity(chat_id)` fails (`resolvable`),
when a truthy `interval_seconds` is non-numeric or `≤ 0`, or when
`schedule_time` is missing/unparseable; mark `sent = True` when the
parsed time is strictly in the past; otherwise install the timer.
Every branch is reached inside the per-record `try`/`except`, so the
scan never aborts: the function is total. -/
def recoverStep (resolvable : Int → Bool) (now : Int) (m : Msg) : RecovAction :=
  if !(truthyChat m.chat_id && truthyStr m.schedule_name &&
       truthyStr m.message_text) then .skipped
  else if !resolvable m.chat_id then .skipped
  else if pyTruthyI m.interval_seconds then
    match m.interval_seconds with
    | some (.num n) => if n ≤ 0 then .skipped else .installedRepeating n
    | _ => .skipped
  else
    match m.schedule_time with
    | some (.parsed t) => if t < now then .markedSent else .installedDaily t
    | some .invalid => .skipped
    | none => .skipped

/-- The store mutation the scan applies to one record (`markedSent` sets
the `sent` flag, every other action leaves the record alone). -/
def recovUpdate (resolvable : Int → Bool) (now : Int) (m : Msg) : Msg :=
  match recoverStep resolvable now m with
  | .markedSent => { m with sent := true }
  | _ => m

/-- The timers the scan installs for one record. -/
def recovTrig (resolvable : Int → Bool) (now : Int) (m : Msg) : Trigs :=
  match recoverStep resolvable now m with
  | .installedRepeating n => [(m.id, .repeating n)]
  | .installedDaily t => [(m.id, .daily t)]
  | _ => []

/-- The whole scan over the `find({"sent": False})` snapshot: the
records after the scan's store mutations, and the timers installed. -/
def recoverScan (resolvable : Int → Bool) (now : Int) (recs : List Msg) :
    List Msg × Trigs :=
  (recs.map (recovUpdate resolvable now),
   (recs.map (recovTrig resolvable now)).flatten)

/-! ## Delivery (`send_scheduled_message`) -/

/-- The argument list of one `client.send_message` call: destination,
text, optional `(media_type, file_id, access_hash)` media reference, and
the url buttons. -/
structure Payload where
  chat : Int
  text : String
  media : Option (String × Int × Int)
  buttons : List (String × String)
deriving DecidableEq

/-- Truthiness of an optional string field. -/
def truthyOptStr : Option String → Bool
  | none => false
  | some s => s != ""

/-- Truthiness of an optional integer field. -/
def truthyOptInt : Option Int → Bool
  | none => false
  | some n => n != 0

/-- `message.get("file_id") and message.get("media_type") and
message.get("access_hash")` (src/main.py line 445); `file_id` is a
non-empty decimal string whenever present. -/
def mediaTruthy (m : Msg) : Bool :=
  m.file_id.isSome && truthyOptStr m.media_type && truthyOptInt m.access_hash

/-- `not message.get("interval_seconds")`: the job is one-shot. -/
def oneShot (m : Msg) : Bool := !pyTruthyI m.interval_seconds

/-- The coroutine body of `send_scheduled_message` (src/main.py lines
433-487).  `sendOk` is the transport outcome of the (single)
`send_message` call; a raised transport error is caught by the
surrounding `except`, so on failure the `sent` update never runs.
Returns the store afterwards and the payload of the attempted send
(`none` when no send was attempted: record absent, already `sent`, or a
truthy media triple with a `media_type` that is neither photo nor
video). -/
def deliverInner (st : Store) (chat : Int) (mid : Nat) (sendOk : Bool) :
    Store × Option Payload :=
  match findById st mid with
  | none => (st, none)
  | some m =>
    if m.sent then (st, none)
    else if mediaTruthy m then
      if m.media_type == some "photo" || m.media_type == some "video" then
        let p : Payload :=
          { chat := chat, text := m.message_text,
            media := some (m.media_type.getD "", m.file_id.getD 0,
                           m.access_hash.getD 0),
            buttons := m.buttons }
        if sendOk then
          (if oneShot m then updateSent st mid else st, some p)
        else (st, some p)
      else (st, none)
    else
      let p : Payload :=
        { chat := chat, text := m.message_text, media := none,
          buttons := m.buttons }
      if sendOk then
        (if oneShot m then updateSent st mid else st, some p)
      else (st, some p)

/-- The full `send_scheduled_message` job callback: it schedules the
coroutine, then re-reads the record and returns `schedule.CancelJob`
(third component `true`) whenever the record exists with a falsy
`interval_seconds` — independent of the send outcome.  The coroutine
only ever flips `sent`, never the id or `interval_seconds`, so running
it before the re-read (as modelled) yields the same cancel decision as
any real interleaving. -/
def sendScheduledMessage (st : Store) (chat : Int) (mid : Nat)
    (sendOk : Bool) : Store × Option Payload × Bool :=
  let r := deliverInner st chat mid sendOk
  let cancel :=
    match findById r.1 mid with
    | some m => oneShot m
    | none => false
  (r.1, r.2, cancel)

/-- The `schedule` library's handling of a `CancelJob` return value:
the job's own tag is removed from the timer set. -/
def applyCancel (trigs : Trigs) (mid : Nat) (c : Bool) : Trigs :=
  if c then clearTag trigs mid else trigs

/-- Number of transport send calls in a delivery outcome. -/
def sendAttempts (p : Option Payload) : Nat := if p.isSome then 1 else 0

/-- Two consecutive deliveries of the same job id: total send calls. -/
def sendTwiceAttempts (st : Store) (chat : Int) (mid : Nat)
    (ok1 ok2 : Bool) : Nat :=
  let r1 := sendScheduledMessage st chat mid ok1
  let r2 := sendScheduledMessage r1.1 chat mid ok2
  sendAttempts r1.2.1 + sendAttempts r2.2.1

/-- Any number of deliveries of the same job id, with the given
per-attempt transport outcomes. -/
def deliverMany (st : Store) (chat : Int) (mid : Nat) (oks : List Bool) :
    Store :=
  oks.foldl (fun s ok => (sendScheduledMessage s chat mid ok).1) st

/-! ## `/delete` (`handle_delete_schedule`) -/

/-- The filter `{"_id": ObjectId(mid), "chat_id": chat, "sent": False}`. -/
def deleteFilter (chat : Int) (mid : Nat) (m : Msg) : Bool :=
  m.id == mid && m.chat_id == chat && !m.sent

/-- `handle_delete_schedule` (src/main.py lines 514-537):
`delete_one` on the filter; when it deleted nothing (third component
`false`) answer "not found or already sent" and stop — in particular
`schedule.clear` is *not* reached; otherwise clear the job's tag. -/
def deleteSchedule (st : Store) (trigs : Trigs) (chat : Int) (mid : Nat) :
    Store × Trigs × Bool :=
  if st.recs.any (deleteFilter chat mid) then
    ({ st with recs := st.recs.eraseP (deleteFilter chat mid) },
     clearTag trigs mid, true)
  else (st, trigs, false)

/-! ## Concrete fixtures used by witnesses and counterexamples -/

/-- Whether an `interval_seconds` value is a positive number
(`isinstance(v, (int, float)) and v > 0`). -/
def isPosNum : IVal → Bool
  | .num n => decide (0 < n)
  | .other _ => false

/-- Concrete prior record for the C1 witness. -/
def oldC1 : Msg :=
  { id := 0, chat_id := 1, schedule_name := "daily", message_text := "old",
    interval_seconds := some (.num 5), schedule_time := none,
    media_type := none, file_id := none, access_hash := none, buttons := [],
    sent := false }

/-- Concrete store for the C1 witness. -/
def stC1 : Store := { recs := [oldC1], nextId := 1 }

/-- Concrete pending data for the C1 witness. -/
def pendC1 : PendData :=
  { message_text := "new", media_type := none, file_id := none,
    access_hash := none, buttons := [] }

/-- A record scanned by Recovery whose `fire_at` is in the past is *not*
always marked `completed=true`: a data-model-valid past-due record whose
destination chat does not resolve (`get_entity` fails) is skipped at the
entity check — the scan leaves it with `sent = false` and never reaches
the past-due marking.  This refutes claim C2 as stated. -/
def msgC2 : Msg :=
  { id := 3, chat_id := 7, schedule_name := "n", message_text := "t",
    interval_seconds := none, schedule_time := some (.parsed 5),
    media_type := none, file_id := none, access_hash := none, buttons := [],
    sent := false }

/-- A record that violates the data model by carrying both a falsy
`interval_seconds` (0) and a future `fire_at`: because Python's
`if interval_seconds:` treats 0 as absent, `load_schedules` falls
through to the `schedule_time` branch and installs a daily trigger. -/
def msgC8 : Msg :=
  { id := 4, chat_id := 1, schedule_name := "r", message_text := "b",
    interval_seconds := some (.num 0), schedule_time := some (.parsed 20),
    media_type := none, file_id := none, access_hash := none, buttons := [],
    sent := false }

/-- `msgC8` with a truthy negative interval, for the amended-C8 witness. -/
def msgC8n : Msg := { msgC8 with interval_seconds := some (.num (-5)) }

/-- Prior record for the C4 counterexample store. -/
def oldC4 : Msg :=
  { id := 0, chat_id := 2, schedule_name := "w", message_text := "x",
    interval_seconds := some (.num 9), schedule_time := none,
    media_type := none, file_id := none, access_hash := none, buttons := [],
    sent := false }

/-- Store holding only `oldC4`, for the C4 counterexample. -/
def stC4 : Store := { recs := [oldC4], nextId := 1 }

/-- Pending data for the C4 counterexample and witness. -/
def pendC4 : PendData :=
  { message_text := "y", media_type := none, file_id := none,
    access_hash := none, buttons := [] }

/-- The record's media triple, when truthy, names a sendable media type
(photo or video); text-only records satisfy this vacuously.  A record
failing this is the `logger.error("Invalid media type ...")` early
return of `send_scheduled_message`. -/
def mediaSendable (m : Msg) : Bool :=
  !mediaTruthy m ||
    (m.media_type == some "photo" || m.media_type == some "video")

/-- A one-shot text record, `sent = false` (C3/C6 fixtures). -/
def msgC3 : Msg :=
  { id := 0, chat_id := 1, schedule_name := "s", message_text := "hello",
    interval_seconds := none, schedule_time := some (.parsed 100),
    media_type := none, file_id := none, access_hash := none, buttons := [],
    sent := false }

/-- Store holding only `msgC3`. -/
def stC3 : Store := { recs := [msgC3], nextId := 1 }

/-- `msgC3` already delivered (C5 fixture). -/
def msgC5 : Msg := { msgC3 with sent := true }

/-- Store holding only the completed `msgC5`. -/
def stC5 : Store := { recs := [msgC5], nextId := 1 }

/-- A record whose media triple misses `access_hash` (C9 fixture). -/
def msgC9 : Msg :=
  { id := 0, chat_id := 1, schedule_name := "m", message_text := "txt",
    interval_seconds := none, schedule_time := some (.parsed 50),
    media_type := some "photo", file_id := some 77, access_hash := none,
    buttons := [("Join", "https://e.com")], sent := false }

/-- `msgC9` with the full media triple. -/
def msgC9f : Msg := { msgC9 with access_hash := some 9 }

/-- Store holding only `msgC9`. -/
def stC9 : Store := { recs := [msgC9], nextId := 1 }

/-- Store holding only `msgC9f`. -/
def stC9f : Store := { recs := [msgC9f], nextId := 1 }

/-! ## Helper lemmas -/

/-- When a filter returns exactly one element, `find?` returns it. -/
theorem find?_eq_of_filter_singleton {α : Type} (p : α → Bool) (l : List α)
    (a : α) (h : l.filter p = [a]) : l.find? p = some a := by
  induction l with
  | nil => simp at h
  | cons x t ih =>
    by_cases hx : p x
    · rw [List.filter_cons_of_pos hx] at h
      obtain ⟨rfl, -⟩ := List.cons_eq_cons.mp h
      exact List.find?_cons_of_pos _ hx
    · rw [List.filter_cons_of_neg hx] at h
      rw [List.find?_cons_of_neg _ hx]
      exact ih h

/-- When a filter returns exactly one element, it is a member. -/
theorem mem_of_filter_singleton {α : Type} (p : α → Bool) (l : List α)
    (a : α) (h : l.filter p = [a]) : a ∈ l :=
  List.mem_of_mem_filter (h ▸ List.mem_singleton_self a : a ∈ l.filter p)

/-- Erasing (by predicate on the id) the unique pair-match from a store
with distinct ids leaves no pair-match. -/
theorem filter_pair_eraseP (c : Int) (nm : String) (l : List Msg) (old : Msg)
    (hnd : (l.map Msg.id).Nodup)
    (hf : l.filter (matchesPair c nm) = [old]) :
    (l.eraseP (fun m => m.id == old.id)).filter (matchesPair c nm) = [] := by
  induction l with
  | nil => simp at hf
  | cons x t ih =>
    rw [List.map_cons, List.nodup_cons] at hnd
    by_cases hid : x.id = old.id
    · rw [List.eraseP_cons_of_pos (by simp [hid])]
      by_cases hq : matchesPair c nm x
      · rw [List.filter_cons_of_pos hq] at hf
        exact (List.cons_eq_cons.mp hf).2
      · rw [List.filter_cons_of_neg hq] at hf
        exact absurd (hid ▸ List.mem_map_of_mem Msg.id
          (mem_of_filter_singleton _ t old hf)) hnd.1
    · rw [List.eraseP_cons_of_neg (by simp [hid])]
      by_cases hq : matchesPair c nm x
      · rw [List.filter_cons_of_pos hq] at hf
        exact absurd (congrArg Msg.id (List.cons_eq_cons.mp hf).1) hid
      · rw [List.filter_cons_of_neg hq] at hf
        rw [List.filter_cons_of_neg hq]
        exact ih hnd.2 hf

/-- Erasing by a predicate that only holds at id `mid`, in a store with
distinct ids in which some member satisfies the predicate, removes id
`mid` from the store entirely. -/
theorem not_mem_map_id_eraseP (p : Msg → Bool) (mid : Nat) (l : List Msg)
    (m : Msg) (hp : ∀ x, p x = true → x.id = mid)
    (hnd : (l.map Msg.id).Nodup) (hm : m ∈ l) (hpm : p m = true) :
    mid ∉ (l.eraseP p).map Msg.id := by
  induction l with
  | nil => simp at hm
  | cons x t ih =>
    rw [List.map_cons, List.nodup_cons] at hnd
    by_cases hx : p x
    · rw [List.eraseP_cons_of_pos hx]
      exact fun hmem => hnd.1 (hp x hx ▸ hmem)
    · rw [List.eraseP_cons_of_neg hx]
      have hmt : m ∈ t := by
        cases List.mem_cons.mp hm with
        | inl h => exact absurd (h ▸ hpm) hx
        | inr h => exact h
      rw [List.map_cons]
      intro hmem
      cases List.mem_cons.mp hmem with
      | inl h =>
        exact hnd.1 (h ▸ hp m hpm ▸ List.mem_map_of_mem Msg.id hmt)
      | inr h => exact ih hnd.2 hmt h

/-- The timers `recovTrig` emits for a record are tagged with that
record's id. -/
theorem recovTrig_tag (resolvable : Int → Bool) (now : Int) (m : Msg)
    (i : Nat) (k : TrigKind) (h : (i, k) ∈ recovTrig resolvable now m) :
    i = m.id := by
  unfold recovTrig at h
  cases hr : recoverStep resolvable now m <;> rw [hr] at h <;> simp at h <;>
    exact h.1

/-- A record for which the scan installs no timer has no timer tagged
with its id in the whole scan output (ids being distinct). -/
theorem scan_no_trig (resolvable : Int → Bool) (now : Int) (recs : List Msg)
    (m : Msg) (hnd : (recs.map Msg.id).Nodup) (hm : m ∈ recs)
    (hskip : recovTrig resolvable now m = []) :
    ∀ k, (m.id, k) ∉ (recoverScan resolvable now recs).2 := by
  intro k hmem
  unfold recoverScan at hmem
  obtain ⟨ts, hts, hkts⟩ := List.mem_flatten.mp hmem
  obtain ⟨m2, hm2, rfl⟩ := List.mem_map.mp hts
  have hid : m2.id = m.id := (recovTrig_tag resolvable now m2 m.id k hkts).symm
  have : m2 = m := List.inj_on_of_nodup_map hnd hm2 hm hid
  rw [this, hskip] at hkts
  exact List.not_mem_nil _ hkts

/-- `find?` by id after the `sent := true` update finds the updated
record. -/
theorem find?_updateSent (recs : List Msg) (mid : Nat) (m : Msg)
    (h : recs.find? (fun x => x.id == mid) = some m) :
    (recs.map (fun x => if x.id == mid then { x with sent := true } else x)).find?
        (fun x => x.id == mid) = some { m with sent := true } := by
  induction recs with
  | nil => simp at h
  | cons x t ih =>
    by_cases hx : x.id = mid
    · rw [List.find?_cons_of_pos _ (by simp [hx])] at h
      rw [List.map_cons, if_pos (by simp [hx])]
      rw [List.find?_cons_of_pos _ (by simp [hx])]
      rw [Option.some.injEq] at h
      rw [h]
    · rw [List.find?_cons_of_neg _ (by simp [hx])] at h
      rw [List.map_cons, if_neg (by simp [hx])]
      rw [List.find?_cons_of_neg _ (by simp [hx])]
      exact ih h

/-- `deleteById` only touches the record list. -/
theorem deleteById_recs (st : Store) (mid : Nat) :
    (deleteById st mid).recs = st.recs.eraseP (fun m => m.id == mid) := rfl

/-- `deleteById` keeps the fresh-id counter. -/
theorem deleteById_nextId (st : Store) (mid : Nat) :
    (deleteById st mid).nextId = st.nextId := rfl

/-- A cleared tag is gone from the timer set. -/
theorem not_mem_clearTag (trigs : Trigs) (mid : Nat) (k : TrigKind) :
    (mid, k) ∉ clearTag trigs mid := by
  intro h
  have := (List.mem_filter.mp h).2
  simp at this

/-- `nameStep` on a non-empty name that finds an existing record deletes
it and (when it was unsent) clears its tag. -/
theorem nameStep_found (st : Store) (trigs : Trigs) (chat : Int)
    (name : String) (old : Msg) (hname : name ≠ "")
    (hfind : findOnePair st chat name = some old) :
    nameStep st trigs chat name =
      (deleteById st old.id,
       if old.sent then trigs else clearTag trigs old.id, true) := by
  unfold nameStep
  rw [if_neg (by simpa using hname), hfind]

/-- `createMsg` on a non-empty name that finds an existing record runs
the `INTERVAL` step on the store and timers left by the replacement. -/
theorem createMsg_found (st : Store) (trigs : Trigs) (chat : Int)
    (name : String) (pend : PendData) (inp : IntervalInput) (now : Int)
    (old : Msg) (hname : name ≠ "")
    (hfind : findOnePair st chat name = some old) :
    createMsg st trigs chat name pend inp now =
      intervalStep (deleteById st old.id)
        (if old.sent then trigs else clearTag trigs old.id)
        chat name pend inp now := by
  unfold createMsg
  rw [nameStep_found st trigs chat name old hname hfind]
  rfl

/-- Claim C1: for every (destination, schedule_name) pair, creating a
second record with the same pair deletes the first: after the Create
completes, exactly one record matching the pair exists in the Job Store,
the old record's id is absent, and if the old record had
`completed = false` its trigger is cancelled so it no longer fires.
(The hypotheses state the store invariants — distinct, bounded ids — the
existence and uniqueness of the prior pair-match, and that the Create's
inputs pass validation so that it completes.) -/
theorem create_replaces_same_pair
    (st : Store) (trigs : Trigs) (chat : Int) (name : String)
    (pend : PendData) (inp : IntervalInput) (now : Int) (old : Msg)
    (hnd : idsNodup st) (hbd : idsBounded st) (hname : name ≠ "")
    (hfilter : st.recs.filter (matchesPair chat name) = [old])
    (hinp : validInput inp now = true) :
    ((createMsg st trigs chat name pend inp now).1.recs.filter
        (matchesPair chat name)).length = 1 ∧
    old.id ∉ (createMsg st trigs chat name pend inp now).1.recs.map Msg.id ∧
    (old.sent = false →
      ∀ k, (old.id, k) ∉ (createMsg st trigs chat name pend inp now).2.1) := by
  have hfind : findOnePair st chat name = some old :=
    find?_eq_of_filter_singleton _ _ _ hfilter
  have hmem : old ∈ st.recs := mem_of_filter_singleton _ _ _ hfilter
  have hlt : old.id < st.nextId := hbd old hmem
  rw [createMsg_found st trigs chat name pend inp now old hname hfind]
  have herase : (st.recs.eraseP (fun m => m.id == old.id)).filter
      (matchesPair chat name) = [] :=
    filter_pair_eraseP chat name st.recs old hnd hfilter
  have hid : old.id ∉ (st.recs.eraseP (fun m => m.id == old.id)).map Msg.id :=
    not_mem_map_id_eraseP (fun m => m.id == old.id) old.id st.recs old
      (fun x hx => by simpa using hx) hnd hmem (by simp)
  cases inp with
  | secs n =>
    have hn : ¬ n ≤ 0 := by
      simp only [validInput, decide_eq_true_eq] at hinp; omega
    simp only [intervalStep]
    rw [if_neg hn]
    refine ⟨?_, ?_, ?_⟩
    · simp only [insertOne, deleteById_recs, deleteById_nextId,
        List.filter_append, herase, List.nil_append]
      simp [matchesPair, mkMsg]
    · simp only [insertOne, deleteById_recs, deleteById_nextId,
        List.map_append]
      intro hc
      rcases List.mem_append.mp hc with h | h
      · exact hid h
      · simp only [List.map_cons, List.map_nil, List.mem_singleton] at h
        rw [h] at hlt
        exact absurd rfl (Nat.ne_of_lt hlt)
    · intro hsent k hk
      rw [if_neg (by simp [hsent])] at hk
      simp only [deleteById_nextId] at hk
      rcases List.mem_append.mp hk with h | h
      · exact not_mem_clearTag trigs old.id k h
      · simp only [List.mem_singleton, Prod.mk.injEq] at h
        exact absurd h.1 (Nat.ne_of_lt hlt)
  | timeAt t =>
    have ht : ¬ t < now := by
      simp only [validInput, Bool.not_eq_eq_eq_not, Bool.not_true,
        decide_eq_false_iff_not] at hinp
      exact hinp
    simp only [intervalStep]
    rw [if_neg ht]
    refine ⟨?_, ?_, ?_⟩
    · simp only [insertOne, deleteById_recs, deleteById_nextId,
        List.filter_append, herase, List.nil_append]
      simp [matchesPair, mkMsg]
    · simp only [insertOne, deleteById_recs, deleteById_nextId,
        List.map_append]
      intro hc
      rcases List.mem_append.mp hc with h | h
      · exact hid h
      · simp only [List.map_cons, List.map_nil, List.mem_singleton] at h
        rw [h] at hlt
        exact absurd rfl (Nat.ne_of_lt hlt)
    · intro hsent k hk
      rw [if_neg (by simp [hsent])] at hk
      simp only [deleteById_nextId] at hk
      rcases List.mem_append.mp hk with h | h
      · exact not_mem_clearTag trigs old.id k h
      · simp only [List.mem_singleton, Prod.mk.injEq] at h
        exact absurd h.1 (Nat.ne_of_lt hlt)
  | bad => simp [validInput] at hinp


/-- Witness for C1: replacing the schedule "daily" of chat 1 leaves one
matching record, drops id 0, and clears the old repeating timer. -/
theorem create_replaces_same_pair_witness :
    ((createMsg stC1 [(0, .repeating 5)] 1 "daily" pendC1 (.secs 60) 0).1.recs.filter
        (matchesPair 1 "daily")).length = 1 ∧
    oldC1.id ∉
      (createMsg stC1 [(0, .repeating 5)] 1 "daily" pendC1 (.secs 60) 0).1.recs.map Msg.id ∧
    (oldC1.id, TrigKind.repeating 5) ∉
      (createMsg stC1 [(0, .repeating 5)] 1 "daily" pendC1 (.secs 60) 0).2.1 := by
  have h := create_replaces_same_pair stC1 [(0, .repeating 5)] 1 "daily" pendC1
    (.secs 60) 0 oldC1 (by decide) (by decide) (by decide) (by decide) (by decide)
  exact ⟨h.1, h.2.1, h.2.2 rfl (TrigKind.repeating 5)⟩

/-- A scanned record that passes the field, entity and interval checks
and whose `schedule_time` parses to a time strictly before `now` is
marked sent by `load_schedules`. -/
theorem recoverStep_past (resolvable : Int → Bool) (now : Int) (m : Msg)
    (t : Int)
    (hchat : truthyChat m.chat_id = true)
    (hname : truthyStr m.schedule_name = true)
    (htext : truthyStr m.message_text = true)
    (hres : resolvable m.chat_id = true)
    (hiv : pyTruthyI m.interval_seconds = false)
    (htime : m.schedule_time = some (.parsed t))
    (hpast : t < now) :
    recoverStep resolvable now m = .markedSent := by
  unfold recoverStep
  rw [hchat, hname, htext, hres, hiv, htime]
  simp [hpast]


/-- Claim C2, counterexample: `msgC2` has `fire_at = 5 < now = 10` and is
scanned, yet with an unresolvable destination Recovery skips it: the
record stays `sent = false` in the scan output, contradicting "marks the
record completed=true". -/
theorem recovery_past_due_claim_refuted :
    msgC2.schedule_time = some (.parsed 5) ∧ (5 : Int) < 10 ∧
    msgC2.sent = false ∧
    recoverStep (fun _ => false) 10 msgC2 = .skipped ∧
    (recoverScan (fun _ => false) 10 [msgC2]).1 = [msgC2] := by decide

/-- Claim C2 (amended): for every record scanned during Recovery that
passes the earlier validity checks (required fields present, destination
resolvable, no truthy `interval_seconds`) and whose `fire_at` timestamp
is strictly in the past, Recovery installs no trigger for it, marks the
record `completed=true` in the Job Store, and — having installed no
trigger — makes zero delivery attempts for it.  A past-due record that
fails an earlier validity check is skipped without being marked. -/
theorem recovery_past_due_marks_sent
    (resolvable : Int → Bool) (now : Int) (recs : List Msg) (m : Msg)
    (t : Int) (hmem : m ∈ recs) (hnd : (recs.map Msg.id).Nodup)
    (hchat : truthyChat m.chat_id = true)
    (hname : truthyStr m.schedule_name = true)
    (htext : truthyStr m.message_text = true)
    (hres : resolvable m.chat_id = true)
    (hiv : pyTruthyI m.interval_seconds = false)
    (htime : m.schedule_time = some (.parsed t))
    (hpast : t < now) :
    recoverStep resolvable now m = .markedSent ∧
    { m with sent := true } ∈ (recoverScan resolvable now recs).1 ∧
    ∀ k, (m.id, k) ∉ (recoverScan resolvable now recs).2 := by
  have hstep : recoverStep resolvable now m = .markedSent :=
    recoverStep_past resolvable now m t hchat hname htext hres hiv htime hpast
  refine ⟨hstep, ?_, ?_⟩
  · unfold recoverScan
    exact List.mem_map.mpr ⟨m, hmem, by unfold recovUpdate; rw [hstep]⟩
  · exact scan_no_trig resolvable now recs m hnd hmem
      (by unfold recovTrig; rw [hstep])

/-- Witness for the amended C2 at `msgC2` with a resolvable chat:
the past-due record is marked sent and gets no timer. -/
theorem recovery_past_due_marks_sent_witness :
    recoverStep (fun _ => true) 10 msgC2 = .markedSent ∧
    { msgC2 with sent := true } ∈ (recoverScan (fun _ => true) 10 [msgC2]).1 ∧
    (msgC2.id, TrigKind.daily 5) ∉ (recoverScan (fun _ => true) 10 [msgC2]).2 := by
  have h := recovery_past_due_marks_sent (fun _ => true) 10 [msgC2] msgC2 5
    (by decide) (by decide) (by decide) (by decide) (by decide) (by decide)
    (by decide) (by decide) (by decide)
  exact ⟨h.1, h.2.1, h.2.2 (TrigKind.daily 5)⟩

/-- A scanned record whose `interval_seconds` is truthy but not a
positive number is skipped by `load_schedules`. -/
theorem recoverStep_bad_interval (resolvable : Int → Bool) (now : Int)
    (m : Msg) (iv : IVal) (hiv : m.interval_seconds = some iv)
    (htruthy : pyTruthyI (some iv) = true)
    (hbad : isPosNum iv = false) :
    recoverStep resolvable now m = .skipped := by
  unfold recoverStep
  rw [hiv]
  rw [if_pos htruthy]
  split
  · rfl
  · split
    · rfl
    · cases iv with
      | num n =>
        have hn : n ≤ 0 := by
          simp only [isPosNum, decide_eq_false_iff_not] at hbad; omega
        simp [hn]
      | other b => rfl

/-- Claim C8, counterexample: `msgC8` is scanned with
`interval_seconds = 0` — present and non-positive — yet Recovery does
not skip it: 0 is falsy, so the scan falls through to the future
`fire_at` and installs a daily trigger tagged with the record's id,
contradicting "installs no trigger". -/
theorem recovery_bad_interval_claim_refuted :
    msgC8.interval_seconds = some (.num 0) ∧ isPosNum (.num 0) = false ∧
    recoverStep (fun _ => true) 10 msgC8 = .installedDaily 20 ∧
    (recoverScan (fun _ => true) 10 [msgC8]).2 = [(msgC8.id, .daily 20)] := by
  decide

/-- Claim C8 (amended): for every record scanned during Recovery whose
`interval_seconds` is present and truthy (a non-zero number, or a
non-numeric truthy value) but not a positive number, Recovery skips the
record: it installs no trigger for it, leaves the record unchanged, and
the scan — being total — processes every record without crashing.  A
record whose `interval_seconds` is a falsy value such as 0 is instead
treated as having no interval and falls through to the `fire_at`
branch, which can install a trigger when a future `fire_at` is also
set. -/
theorem recovery_truthy_bad_interval_skipped
    (resolvable : Int → Bool) (now : Int) (recs : List Msg) (m : Msg)
    (iv : IVal) (hmem : m ∈ recs) (hnd : (recs.map Msg.id).Nodup)
    (hiv : m.interval_seconds = some iv)
    (htruthy : pyTruthyI (some iv) = true)
    (hbad : isPosNum iv = false) :
    recoverStep resolvable now m = .skipped ∧
    recovUpdate resolvable now m = m ∧
    (∀ k, (m.id, k) ∉ (recoverScan resolvable now recs).2) ∧
    (recoverScan resolvable now recs).1.length = recs.length := by
  have hstep : recoverStep resolvable now m = .skipped :=
    recoverStep_bad_interval resolvable now m iv hiv htruthy hbad
  refine ⟨hstep, by unfold recovUpdate; rw [hstep],
    scan_no_trig resolvable now recs m hnd hmem
      (by unfold recovTrig; rw [hstep]), ?_⟩
  unfold recoverScan
  simp

/-- Witness for the amended C8 at `msgC8n` (truthy negative interval):
skipped, unchanged, no timer, scan total. -/
theorem recovery_truthy_bad_interval_skipped_witness :
    recoverStep (fun _ => true) 10 msgC8n = .skipped ∧
    recovUpdate (fun _ => true) 10 msgC8n = msgC8n ∧
    (msgC8n.id, TrigKind.daily 20) ∉ (recoverScan (fun _ => true) 10 [msgC8n]).2 ∧
    (recoverScan (fun _ => true) 10 [msgC8n]).1.length = 1 := by
  have h := recovery_truthy_bad_interval_skipped (fun _ => true) 10 [msgC8n]
    msgC8n (.num (-5)) (by decide) (by decide) (by decide) (by decide)
    (by decide)
  exact ⟨h.1, h.2.1, h.2.2.1 (TrigKind.daily 20), h.2.2.2⟩

/-- The `INTERVAL` step rejects a timestamp strictly before `now`
("Cannot schedule messages in the past!") with no store or timer
change. -/
theorem intervalStep_past (st : Store) (trigs : Trigs) (chat : Int)
    (name : String) (pend : PendData) (t now : Int) (hpast : t < now) :
    intervalStep st trigs chat name pend (.timeAt t) now =
      (st, trigs, .rejected) := by
  simp only [intervalStep]
  rw [if_pos hpast]

/-- `nameStep` either advances, or was the empty-name rejection leaving
everything unchanged. -/
theorem nameStep_third (st : Store) (trigs : Trigs) (chat : Int)
    (name : String) :
    (nameStep st trigs chat name).2.2 = true ∨
    nameStep st trigs chat name = (st, trigs, false) := by
  unfold nameStep
  split
  · exact Or.inr rfl
  · split <;> exact Or.inl rfl

/-- Claim C4, counterexample: a Create for chat 2, name "w" whose
trigger input is the past timestamp 5 (at `now = 10`) is rejected at
the `INTERVAL` step; afterwards *zero* records for the pair exist (the
prior same-named record was already deleted at the name step, and
nothing was inserted: `nextId` is unchanged).  This contradicts "the
record is left stored in the Job Store with completed=false". -/
theorem create_past_time_claim_refuted :
    (createMsg stC4 [(0, .repeating 9)] 2 "w" pendC4 (.timeAt 5) 10).2.2 =
      .rejected ∧
    (createMsg stC4 [(0, .repeating 9)] 2 "w" pendC4
        (.timeAt 5) 10).1.recs.filter (matchesPair 2 "w") = [] ∧
    (createMsg stC4 [(0, .repeating 9)] 2 "w" pendC4 (.timeAt 5) 10).1.nextId =
      stC4.nextId := by decide

/-- Claim C4 (amended): for every Create whose trigger spec is a
`fire_at` timestamp strictly in the past, the `INTERVAL` step rejects it
as a validation error: no record is inserted, no trigger is installed,
and no completion flag is touched — the Create leaves exactly the store
and timers produced by the earlier name-collection step (which may
already have deleted a same-named record), so the new record is not
stored at all. -/
theorem create_past_time_rejected (st : Store) (trigs : Trigs) (chat : Int)
    (name : String) (pend : PendData) (t now : Int) (hpast : t < now) :
    intervalStep st trigs chat name pend (.timeAt t) now =
      (st, trigs, .rejected) ∧
    createMsg st trigs chat name pend (.timeAt t) now =
      ((nameStep st trigs chat name).1, (nameStep st trigs chat name).2.1,
       .rejected) := by
  refine ⟨intervalStep_past st trigs chat name pend t now hpast, ?_⟩
  simp only [createMsg]
  rcases nameStep_third st trigs chat name with h | h
  · rw [if_pos h]
    exact intervalStep_past _ _ chat name pend t now hpast
  · rw [h]
    simp

/-- Witness for the amended C4 at an empty store with `t = 5 < now = 10`. -/
theorem create_past_time_rejected_witness :
    intervalStep { recs := [], nextId := 0 } [] 1 "x" pendC4 (.timeAt 5) 10 =
      ({ recs := [], nextId := 0 }, [], .rejected) ∧
    createMsg { recs := [], nextId := 0 } [] 1 "x" pendC4 (.timeAt 5) 10 =
      ((nameStep { recs := [], nextId := 0 } [] 1 "x").1,
       (nameStep { recs := [], nextId := 0 } [] 1 "x").2.1, .rejected) :=
  create_past_time_rejected { recs := [], nextId := 0 } [] 1 "x" pendC4 5 10
    (by decide)

/-- Claim C10: the replacement deletion of an existing same-named record
(and the cancellation of its trigger) happens at the moment the schedule
name is collected, before any insertion (which only occurs at the final
`INTERVAL` step — witness `nextId` unchanged); hence in an execution in
which the operator cancels the flow (`/cancel`) right after supplying
the name, zero records exist for that (destination, schedule_name) pair
afterwards. -/
theorem name_step_deletes_before_insert
    (st : Store) (trigs : Trigs) (states : List Nat) (uid : Nat)
    (chat : Int) (name : String) (old : Msg)
    (hnd : idsNodup st) (hname : name ≠ "")
    (hfilter : st.recs.filter (matchesPair chat name) = [old]) :
    (nameStep st trigs chat name).2.2 = true ∧
    (nameStep st trigs chat name).1.recs.filter (matchesPair chat name) = [] ∧
    (nameStep st trigs chat name).1.nextId = st.nextId ∧
    (handleCancel states uid (nameStep st trigs chat name).1
        (nameStep st trigs chat name).2.1).2.1.recs.filter
      (matchesPair chat name) = [] ∧
    uid ∉ (handleCancel states uid (nameStep st trigs chat name).1
        (nameStep st trigs chat name).2.1).1 := by
  have hfind : findOnePair st chat name = some old :=
    find?_eq_of_filter_singleton _ _ _ hfilter
  rw [nameStep_found st trigs chat name old hname hfind]
  have herase : (st.recs.eraseP (fun m => m.id == old.id)).filter
      (matchesPair chat name) = [] :=
    filter_pair_eraseP chat name st.recs old hnd hfilter
  refine ⟨rfl, herase, rfl, herase, ?_⟩
  intro hmem
  have := (List.mem_filter.mp hmem).2
  simp at this

/-- Witness for C10: after the name step on `stC4` the pair (2, "w") has
no record, `nextId` is untouched, and `/cancel` for operator 5 removes
the conversation without store changes. -/
theorem name_step_deletes_before_insert_witness :
    (nameStep stC4 [(0, .repeating 9)] 2 "w").2.2 = true ∧
    (nameStep stC4 [(0, .repeating 9)] 2 "w").1.recs.filter
      (matchesPair 2 "w") = [] ∧
    (nameStep stC4 [(0, .repeating 9)] 2 "w").1.nextId = stC4.nextId ∧
    (handleCancel [5] 5 (nameStep stC4 [(0, .repeating 9)] 2 "w").1
        (nameStep stC4 [(0, .repeating 9)] 2 "w").2.1).2.1.recs.filter
      (matchesPair 2 "w") = [] ∧
    (5 : Nat) ∉ (handleCancel [5] 5 (nameStep stC4 [(0, .repeating 9)] 2 "w").1
        (nameStep stC4 [(0, .repeating 9)] 2 "w").2.1).1 :=
  name_step_deletes_before_insert stC4 [(0, .repeating 9)] [5] 5 2 "w" oldC4
    (by decide) (by decide) (by decide)

/-- Claim C6: for every Cancel(job_id, destination) where no record
matches `{id, destination, completed: false}` (nonexistent id or
already-completed job), the operation reports not-found, performs no
store mutation and cancels no Trigger Set entry; when a record does
match, it is deleted (its id leaves the store) and its Trigger Set entry
is cancelled. -/
theorem delete_schedule_spec
    (st : Store) (trigs : Trigs) (chat : Int) (mid : Nat)
    (hnd : idsNodup st) :
    ((∀ m ∈ st.recs, deleteFilter chat mid m = false) →
      deleteSchedule st trigs chat mid = (st, trigs, false)) ∧
    (∀ m ∈ st.recs, deleteFilter chat mid m = true →
      (deleteSchedule st trigs chat mid).2.2 = true ∧
      mid ∉ (deleteSchedule st trigs chat mid).1.recs.map Msg.id ∧
      ∀ k, (mid, k) ∉ (deleteSchedule st trigs chat mid).2.1) := by
  constructor
  · intro h
    unfold deleteSchedule
    rw [if_neg]
    simp only [List.any_eq_true, not_exists]
    intro x
    intro hx
    rcases hx with ⟨hxm, hxp⟩
    rw [h x hxm] at hxp
    exact Bool.false_ne_true hxp
  · intro m hm hpm
    unfold deleteSchedule
    rw [if_pos (by simp only [List.any_eq_true]; exact ⟨m, hm, hpm⟩)]
    refine ⟨rfl, ?_, fun k => not_mem_clearTag trigs mid k⟩
    exact not_mem_map_id_eraseP (deleteFilter chat mid) mid st.recs m
      (fun x hx => by
        simp only [deleteFilter, Bool.and_eq_true, beq_iff_eq] at hx
        exact hx.1.1)
      hnd hm hpm

/-- Witness for C6 on `stC3`: id 9 is absent (not-found, nothing
changes); id 0 matches (deleted and its timer tag cleared). -/
theorem delete_schedule_spec_witness :
    deleteSchedule stC3 [(0, .daily 4)] 1 9 = (stC3, [(0, .daily 4)], false) ∧
    (deleteSchedule stC3 [(0, .daily 4)] 1 0).2.2 = true ∧
    (0 : Nat) ∉ (deleteSchedule stC3 [(0, .daily 4)] 1 0).1.recs.map Msg.id ∧
    ((0 : Nat), TrigKind.daily 4) ∉
      (deleteSchedule stC3 [(0, .daily 4)] 1 0).2.1 := by
  have h9 := (delete_schedule_spec stC3 [(0, .daily 4)] 1 9 (by decide)).1
    (by decide)
  have h0 := (delete_schedule_spec stC3 [(0, .daily 4)] 1 0 (by decide)).2
    msgC3 (by decide) (by decide)
  exact ⟨h9, h0.1, h0.2.1, h0.2.2 (TrigKind.daily 4)⟩

/-- For a record whose `interval_seconds` is truthy, the delivery
coroutine never touches the store (the `sent` update is guarded by
`if not message.get("interval_seconds")`). -/
theorem deliverInner_fst_of_interval (st : Store) (chat : Int) (mid : Nat)
    (m : Msg) (ok : Bool) (hfind : findById st mid = some m)
    (hiv : pyTruthyI m.interval_seconds = true) :
    (deliverInner st chat mid ok).1 = st := by
  have hos : oneShot m = false := by unfold oneShot; rw [hiv]; rfl
  unfold deliverInner
  rw [hfind]
  simp only [hos, Bool.false_eq_true, if_false]
  split
  · rfl
  · split
    · split
      · split <;> rfl
      · rfl
    · split <;> rfl

/-- Claim C7: for every recurring job (positive `interval_seconds`), no
delivery — however many times it runs and whatever each send's outcome —
ever changes the Job Store: in particular the record's `completed` field
is never set to true and the record is never removed (removal happens
only in the deletion paths of Cancel and replacement), and the job
callback never returns `CancelJob`. -/
theorem recurring_delivery_never_completes
    (st : Store) (chat : Int) (mid : Nat) (m : Msg) (n : Int)
    (oks : List Bool) (hfind : findById st mid = some m)
    (hiv : m.interval_seconds = some (.num n)) (hpos : 0 < n) :
    (∀ ok, (sendScheduledMessage st chat mid ok).1 = st ∧
      (sendScheduledMessage st chat mid ok).2.2 = false) ∧
    deliverMany st chat mid oks = st := by
  have htv : pyTruthyI m.interval_seconds = true := by
    rw [hiv]
    simp only [pyTruthyI, bne_iff_ne, ne_eq, decide_not]
    omega
  have hos : oneShot m = false := by unfold oneShot; rw [htv]; rfl
  have hstep : ∀ ok, (sendScheduledMessage st chat mid ok).1 = st ∧
      (sendScheduledMessage st chat mid ok).2.2 = false := by
    intro ok
    have h1 : (deliverInner st chat mid ok).1 = st :=
      deliverInner_fst_of_interval st chat mid m ok hfind htv
    constructor
    · exact h1
    · show (match findById (deliverInner st chat mid ok).1 mid with
        | some x => oneShot x
        | none => false) = false
      rw [h1, hfind]
      exact hos
  refine ⟨hstep, ?_⟩
  induction oks with
  | nil => rfl
  | cons ok rest ih =>
    show deliverMany (sendScheduledMessage st chat mid ok).1 chat mid rest = st
    rw [(hstep ok).1]
    exact ih

/-- Witness for C7 on `stC1` (repeating every 5 seconds): three firings
with mixed outcomes leave the store — and the `sent = false` flag —
untouched, and never cancel the timer. -/
theorem recurring_delivery_never_completes_witness :
    ((sendScheduledMessage stC1 1 0 true).1 = stC1 ∧
      (sendScheduledMessage stC1 1 0 true).2.2 = false) ∧
    deliverMany stC1 1 0 [true, false, true] = stC1 := by
  have h := recurring_delivery_never_completes stC1 1 0 oldC1 5
    [true, false, true] (by decide) (by decide) (by decide)
  exact ⟨h.1 true, h.2⟩

/-- The delivery coroutine aborts outright — no send, no mutation — when
the record is absent or already `sent` (the `if not message or
message.get("sent"): return` guard). -/
theorem deliverInner_absent_or_sent (st : Store) (chat : Int) (mid : Nat)
    (ok : Bool) (h : ∀ m, findById st mid = some m → m.sent = true) :
    deliverInner st chat mid ok = (st, none) := by
  unfold deliverInner
  cases hf : findById st mid with
  | none => rfl
  | some m => simp [h m hf]

/-- Claim C5: for every job id whose Job Record is absent or already has
`completed = true`, Delivery aborts silently: it performs no transport
send and no Job Store mutation, so a second Delivery invocation for an
already-completed job id results in at most one transport send total
(here: zero sends across both invocations). -/
theorem delivery_completed_aborts
    (st : Store) (chat : Int) (mid : Nat) (ok1 ok2 : Bool)
    (h : ∀ m, findById st mid = some m → m.sent = true) :
    (sendScheduledMessage st chat mid ok1).1 = st ∧
    (sendScheduledMessage st chat mid ok1).2.1 = none ∧
    sendTwiceAttempts st chat mid ok1 ok2 = 0 := by
  have hsend : ∀ ok, (sendScheduledMessage st chat mid ok).1 = st ∧
      (sendScheduledMessage st chat mid ok).2.1 = none := by
    intro ok
    unfold sendScheduledMessage
    rw [deliverInner_absent_or_sent st chat mid ok h]
    exact ⟨rfl, rfl⟩
  refine ⟨(hsend ok1).1, (hsend ok1).2, ?_⟩
  show sendAttempts (sendScheduledMessage st chat mid ok1).2.1 +
      sendAttempts
        (sendScheduledMessage (sendScheduledMessage st chat mid ok1).1
          chat mid ok2).2.1 = 0
  rw [(hsend ok1).1, (hsend ok1).2, (hsend ok2).2]
  rfl

/-- Witness for C5 on `stC5` (record already `sent = true`): both
invocations abort with zero sends and no mutation. -/
theorem delivery_completed_aborts_witness :
    (sendScheduledMessage stC5 1 0 true).1 = stC5 ∧
    (sendScheduledMessage stC5 1 0 true).2.1 = none ∧
    sendTwiceAttempts stC5 1 0 true true = 0 :=
  delivery_completed_aborts stC5 1 0 true true (by decide)

/-- When the media truthiness check fails, delivery sends the text-only
payload carrying the record's buttons. -/
theorem deliverInner_text (st : Store) (chat : Int) (mid : Nat) (m : Msg)
    (ok : Bool) (hfind : findById st mid = some m) (hsent : m.sent = false)
    (hmt : mediaTruthy m = false) :
    (deliverInner st chat mid ok).2 =
      some { chat := chat, text := m.message_text, media := none,
             buttons := m.buttons } := by
  unfold deliverInner
  rw [hfind]
  simp only [hsent, Bool.false_eq_true, if_false, hmt]
  split <;> rfl

/-- Claim C9: for every job record in which any one of the three media
fields (`file_id`, `media_type`, `access_hash`) is missing, Delivery
sends a text-only message carrying the record's buttons rather than
failing or attempting a media send; a payload with media attached is
produced only when all three fields are present. -/
theorem delivery_media_guard
    (st : Store) (chat : Int) (mid : Nat) (m : Msg) (ok : Bool)
    (hfind : findById st mid = some m) (hsent : m.sent = false) :
    ((m.file_id = none ∨ m.media_type = none ∨ m.access_hash = none) →
      (deliverInner st chat mid ok).2 =
        some { chat := chat, text := m.message_text, media := none,
               buttons := m.buttons }) ∧
    (∀ p md, (deliverInner st chat mid ok).2 = some p → p.media = some md →
      m.file_id.isSome = true ∧ m.media_type.isSome = true ∧
      m.access_hash.isSome = true) := by
  constructor
  · intro hmiss
    have hmt : mediaTruthy m = false := by
      unfold mediaTruthy
      rcases hmiss with h | h | h <;> rw [h] <;>
        simp [truthyOptStr, truthyOptInt]
    exact deliverInner_text st chat mid m ok hfind hsent hmt
  · intro p md hp hmd
    by_cases hmt : mediaTruthy m = true
    · unfold mediaTruthy at hmt
      simp only [Bool.and_eq_true] at hmt
      refine ⟨hmt.1.1, ?_, ?_⟩
      · cases hmtype : m.media_type with
        | none => rw [hmtype] at hmt; simp [truthyOptStr] at hmt
        | some v => rfl
      · cases hhash : m.access_hash with
        | none => rw [hhash] at hmt; simp [truthyOptInt] at hmt
        | some v => rfl
    · rw [deliverInner_text st chat mid m ok hfind hsent
        (Bool.not_eq_true _ ▸ Bool.of_not_eq_true hmt)] at hp
      rw [Option.some.injEq] at hp
      rw [← hp] at hmd
      simp at hmd

/-- Witness for C9: `msgC9` (missing `access_hash`) yields a text-only
payload with its button; `msgC9f` (full triple) yields a media payload,
and all three fields are indeed present. -/
theorem delivery_media_guard_witness :
    (deliverInner stC9 1 0 true).2 =
      some { chat := 1, text := "txt", media := none,
             buttons := [("Join", "https://e.com")] } ∧
    (msgC9f.file_id.isSome = true ∧ msgC9f.media_type.isSome = true ∧
      msgC9f.access_hash.isSome = true) := by
  have h9 := (delivery_media_guard stC9 1 0 msgC9 true (by decide)
    (by decide)).1 (by decide)
  have h9f := (delivery_media_guard stC9f 1 0 msgC9f true (by decide)
    (by decide)).2
    { chat := 1, text := "txt", media := some ("photo", 77, 9),
      buttons := [("Join", "https://e.com")] } ("photo", 77, 9)
    (by decide) (by decide)
  exact ⟨h9, h9f⟩

/-- For a deliverable one-shot record (falsy `interval_seconds`), the
delivery coroutine attempts exactly one send and sets `sent := true`
exactly when the transport call succeeded. -/
theorem deliverInner_oneshot (st : Store) (chat : Int) (mid : Nat)
    (m : Msg) (ok : Bool) (hfind : findById st mid = some m)
    (hsent : m.sent = false) (hone : pyTruthyI m.interval_seconds = false)
    (hmedia : mediaSendable m = true) :
    (deliverInner st chat mid ok).1 =
      (if ok = true then updateSent st mid else st) ∧
    (deliverInner st chat mid ok).2.isSome = true := by
  have hos : oneShot m = true := by unfold oneShot; rw [hone]; rfl
  unfold deliverInner
  rw [hfind]
  simp only [hsent, Bool.false_eq_true, if_false, hos, if_true]
  by_cases hmt : mediaTruthy m = true
  · have htype : (m.media_type == some "photo" ||
        m.media_type == some "video") = true := by
      unfold mediaSendable at hmedia
      rw [hmt] at hmedia
      simpa using hmedia
    simp only [hmt, if_true, htype]
    cases ok <;> simp
  · simp only [Bool.not_eq_true] at hmt
    simp only [hmt, Bool.false_eq_true, if_false]
    cases ok <;> simp

/-- Claim C3, counterexample: the one-shot record `msgC3` is present and
unsent; a delivery whose transport send *fails* leaves it unmarked (so
far agreeing with the claim) — but the job callback still returns
`CancelJob` (the re-read only checks `interval_seconds`, not success),
so the daily trigger is removed from the Trigger Set, contradicting "on
a send failure ... its trigger remains installed". -/
theorem oneshot_failed_send_claim_refuted :
    msgC3.interval_seconds = none ∧ msgC3.sent = false ∧
    (sendScheduledMessage stC3 1 0 false).2.1.isSome = true ∧
    (sendScheduledMessage stC3 1 0 false).1 = stC3 ∧
    (sendScheduledMessage stC3 1 0 false).2.2 = true ∧
    applyCancel [(0, .daily 100)] 0
      (sendScheduledMessage stC3 1 0 false).2.2 = [] := by decide

/-- Claim C3 (amended): for every deliverable one-shot job (no
`interval_seconds`, record present and unsent), the first firing always
returns `CancelJob`, removing the job's Trigger Set entry regardless of
the send outcome; the Job Store marking is the only part gated on
success: on a successful send the record is marked `completed = true`,
while on a failed send it is left unchanged (still pending, but with no
trigger left). -/
theorem oneshot_cancel_unconditional
    (st : Store) (trigs : Trigs) (chat : Int) (mid : Nat) (m : Msg)
    (ok : Bool) (hfind : findById st mid = some m) (hsent : m.sent = false)
    (hone : m.interval_seconds = none) (hmedia : mediaSendable m = true) :
    (sendScheduledMessage st chat mid ok).2.1.isSome = true ∧
    (sendScheduledMessage st chat mid ok).2.2 = true ∧
    (∀ k, (mid, k) ∉
      applyCancel trigs mid (sendScheduledMessage st chat mid ok).2.2) ∧
    (ok = true → (sendScheduledMessage st chat mid ok).1 = updateSent st mid) ∧
    (ok = false → (sendScheduledMessage st chat mid ok).1 = st) := by
  have honeT : pyTruthyI m.interval_seconds = false := by rw [hone]; rfl
  have hd := deliverInner_oneshot st chat mid m ok hfind hsent honeT hmedia
  have hcancel : (sendScheduledMessage st chat mid ok).2.2 = true := by
    show (match findById (deliverInner st chat mid ok).1 mid with
      | some x => oneShot x
      | none => false) = true
    rw [hd.1]
    cases ok with
    | false =>
      simp only [Bool.false_eq_true, if_false]
      rw [hfind]
      show oneShot m = true
      unfold oneShot
      rw [honeT]
      rfl
    | true =>
      simp only [if_true]
      have hup : findById (updateSent st mid) mid =
          some { m with sent := true } := find?_updateSent st.recs mid m hfind
      rw [hup]
      show oneShot { m with sent := true } = true
      unfold oneShot
      show (!pyTruthyI m.interval_seconds) = true
      rw [honeT]
      rfl
  refine ⟨hd.2, hcancel, ?_, ?_, ?_⟩
  · intro k
    rw [hcancel]
    exact not_mem_clearTag trigs mid k
  · intro hok
    show (deliverInner st chat mid ok).1 = updateSent st mid
    rw [hd.1, hok]
    simp
  · intro hok
    show (deliverInner st chat mid ok).1 = st
    rw [hd.1, hok]
    simp

/-- Witness for the amended C3 on `stC3`: with a failing send the store
is untouched but the timer is still cleared; with a succeeding send the
record is marked sent. -/
theorem oneshot_cancel_unconditional_witness :
    (sendScheduledMessage stC3 1 0 false).2.2 = true ∧
    ((0 : Nat), TrigKind.daily 100) ∉
      applyCancel [(0, .daily 100)] 0 (sendScheduledMessage stC3 1 0 false).2.2 ∧
    (sendScheduledMessage stC3 1 0 false).1 = stC3 ∧
    (sendScheduledMessage stC3 1 0 true).1 = updateSent stC3 0 := by
  have hf := oneshot_cancel_unconditional stC3 [(0, .daily 100)] 1 0 msgC3
    false (by decide) (by decide) (by decide) (by decide)
  have ht := oneshot_cancel_unconditional stC3 [(0, .daily 100)] 1 0 msgC3
    true (by decide) (by decide) (by decide) (by decide)
  exact ⟨hf.2.1, hf.2.2.1 (TrigKind.daily 100), hf.2.2.2.2 rfl,
    ht.2.2.2.1 rfl⟩
